import Mathlib

set_option linter.unusedVariables false

/-!
Shallow embedding of `src/field/index.js` (FeatureServer): computation of an
esri field-descriptor collection from layer metadata or from inspection of a
sample feature's properties.

Modelling conventions:
* JS `undefined` / `null` is `Option.none`; a JS value that may be absent is an
  `Option`.
* The only exception the code can throw is the `TypeError` raised by
  `type.toLowerCase()` when `type` is `undefined`/`null` (source line 70);
  fallible computations return `Except JsError _` and a thrown exception
  propagates like a JS exception does through `Array.prototype.map`.
* `console.warn` diagnostics are modelled as a returned list of structured
  `FieldWarning` values (`warnOnMetadataFieldDiscrepencies`); they never affect
  a returned field collection.
* A JS object of sample properties is a list of key/value pairs whose keys are
  distinct (`Object.keys` order = insertion order).
-/

/-- The only exception site in the embedded code: `type.toLowerCase()` with
`type` equal to `undefined`/`null` throws a `TypeError` (source line 70). -/
inductive JsError where
  | typeError
  deriving DecidableEq, Repr

/-- Raw JS values that can occur in a sample-properties object.  The payloads
only serve to distinguish concrete inputs; `detectType` looks at the tag. -/
inductive JsValue where
  | str (s : String)
  | intNum (n : Int)
  | doubleNum (units milli : Int)
  | boolVal (b : Bool)
  | dateVal (epoch : Int)
  | nullVal
  deriving DecidableEq, Repr

/-- A JS sample-properties object: key/value pairs, keys distinct. -/
abbrev Properties := List (String × JsValue)

/-- Modelled from the spec: `detectType` lives in `src/field/detect-types.js`,
which is required by `src/field/index.js` but absent from the sources.  Spec
§4.1: it inspects a single raw value and deterministically returns a canonical
tag; §8 pins `detectType(42) = "Integer"`, `detectType(3.14) = "Double"`,
`detectType("x") = "String"` and a date value detects as `"Date"`; a
`null`/missing value resolves to a stable default tag (the string tag here)
rather than throwing. -/
def detectType : JsValue → String
  | .str _ => "String"
  | .intNum _ => "Integer"
  | .doubleNum _ _ => "Double"
  | .boolVal _ => "Boolean"
  | .dateVal _ => "Date"
  | .nullVal => "String"

/-- Modelled from the spec: `esriTypeMap` lives in `src/field/detect-types.js`,
absent from the sources.  Spec §4.1: it maps a lowercase type label to the
corresponding canonical esri tag (`"string" ↦ "esriFieldTypeString"`,
`"integer" ↦ "esriFieldTypeInteger"`, `"double" ↦ "esriFieldTypeDouble"`,
`"date" ↦ "esriFieldTypeDate"`); unrecognized labels map to a documented
fallback, taken here to be the string tag. -/
def esriTypeMap (label : String) : String :=
  if label = "string" then "esriFieldTypeString"
  else if label = "integer" then "esriFieldTypeInteger"
  else if label = "double" then "esriFieldTypeDouble"
  else if label = "date" then "esriFieldTypeDate"
  else "esriFieldTypeString"

/-- An output esri field descriptor (`SchemaField`).  Only the properties the
embedded code reads or writes are modelled; `length`, `editable` and
`nullable` are absent (`none`) unless the code sets them. -/
structure SchemaField where
  name : String
  type : String
  «alias» : String
  length : Option Int := none
  editable : Option Bool := none
  nullable : Option Bool := none
  deriving DecidableEq, Repr

/-- Modelled from the spec: `templates/field.json` (the generic field template)
is outside the sources; it is a base object whose name/type/alias values are
always overridden by the code, so placeholders stand in for them. -/
def fieldTemplate : SchemaField :=
  { name := "", type := "", «alias» := "" }

/-- Modelled from the spec: `templates/oid-field.json` (the dedicated
identifier-field template) is outside the sources; per spec §3/§4.2 it defines
the `OBJECTID` field with the esri OID type. -/
def objectIDFieldTemplate : SchemaField :=
  { name := "OBJECTID", type := "esriFieldTypeOID", «alias» := "OBJECTID" }

/-- A field declared in `metadata.fields`: `{name, alias?, type?, length?}`. -/
structure MetadataField where
  name : String
  «alias» : Option String := none
  type : Option String := none
  length : Option Int := none
  deriving DecidableEq, Repr

/-- The bare `{name: 'OBJECTID'}` entry pushed by `computeFieldsFromMetadata`
(source line 134). -/
def oidMetadataEntry : MetadataField := { name := "OBJECTID" }

/-- One feature of the data payload: `{ properties | attributes }`. -/
structure FeatureRecord where
  properties : Option Properties := none
  attributes : Option Properties := none
  deriving DecidableEq, Repr

/-- The `metadata` member of the data payload. -/
structure MetadataRecord where
  fields : Option (List MetadataField) := none
  deriving DecidableEq, Repr

/-- The data payload consumed by `computeFieldsCollection`. -/
structure DataPayload where
  metadata : Option MetadataRecord := none
  features : Option (List FeatureRecord) := none
  statistics : Option (List Properties) := none
  deriving DecidableEq, Repr

/-- The recognized request options: `{ attributeSample?, outFields? }`. -/
structure RequestOptions where
  attributeSample : Option Properties := none
  outFields : Option String := none
  deriving DecidableEq, Repr

/-- models JS `alias || name`: the alias wins unless it is falsy
(`undefined`/`null` or the empty string). -/
def jsOrAlias («alias» : Option String) (name : String) : String :=
  match «alias» with
  | some a => if a = "" then name else a
  | none => name

/-- models JS `length || dflt` (source line 79): the explicit length wins
unless it is falsy (`undefined`/`null` or `0`). -/
def jsOrLength (length : Option Int) (dflt : Option Int) : Option Int :=
  match length with
  | some n => if n = 0 then dflt else some n
  | none => dflt

/-- models `String.prototype.toLowerCase` (source line 70) at the character
level: lowercase every character. -/
def jsToLowerCase (s : String) : String :=
  String.mk (s.toList.map Char.toLower)

/-- `computeFieldObject(name, alias, type, length, context)` (source lines
63-90): build one esri field descriptor.  A name of `OBJECTID` takes the
identifier-field template (ignoring type/length); otherwise the esri type is
resolved from `type.toLowerCase()` — throwing a `TypeError` when `type` is
`undefined`/`null` — and the length defaulted (128 for `String`, 36 for
`Date`).  In `layer` context the result additionally carries
`editable: false, nullable: false`. -/
def computeFieldObject (name : String) («alias» : Option String)
    (type : Option String) (length : Option Int) (context : Option String) :
    Except JsError SchemaField :=
  if name = "OBJECTID" then
    let outputField := objectIDFieldTemplate
    .ok (if context = some "layer" then
          { outputField with editable := some false, nullable := some false }
        else outputField)
  else
    match type with
    | none => .error .typeError
    | some t =>
      let esriType := esriTypeMap (jsToLowerCase t)
      let outputField : SchemaField :=
        { fieldTemplate with name := name, type := esriType,
                             «alias» := jsOrAlias «alias» name }
      let outputField :=
        { outputField with
            length := jsOrLength length
              (if t = "String" then some 128
               else if t = "Date" then some 36 else none) }
      .ok (if context = some "layer" then
            { outputField with editable := some false, nullable := some false }
          else outputField)

/-- models JS `Array.prototype.map` over a callback that can throw: the first
thrown exception aborts the whole map and propagates. -/
def mapExcept (g : α → Except ε β) : List α → Except ε (List β)
  | [] => .ok []
  | a :: l =>
    match g a with
    | .error e => .error e
    | .ok b =>
      match mapExcept g l with
      | .error e => .error e
      | .ok bs => .ok (b :: bs)

/-- models `Array.prototype.findIndex` (as an `Option`-valued index): index of
the first element satisfying the predicate. -/
def findIndexO (p : α → Bool) : List α → Option Nat
  | [] => none
  | a :: l => if p a then some 0 else (findIndexO p l).map (· + 1)

/-- models source lines 47 and 117:
`arr.unshift(arr.splice(arr.findIndex(pred), 1)[0])`.
`findIndex` yields the first matching index or `-1`; `splice(i, 1)` with
`i ≥ 0` removes and returns the element at `i`, while `splice(-1, 1)` removes
the LAST element of a non-empty array (and nothing from an empty one, in which
case the `[0]` of the returned empty array is `undefined`); `unshift` then
puts that value — possibly `undefined` — at the front. -/
def spliceUnshiftFirst (p : SchemaField → Bool) (fs : List SchemaField) :
    List (Option SchemaField) :=
  match findIndexO p fs with
  | some i => fs[i]? :: (fs.take i ++ fs.drop (i + 1)).map some
  | none =>
    match fs.getLast? with
    | some x => some x :: fs.dropLast.map some
    | none => [none]

/-- the predicate `field.name === 'OBJECTID'` on a schema field. -/
def fieldIsOid (f : SchemaField) : Bool := f.name == "OBJECTID"

/-- lift a schema-field predicate to the possibly-`undefined` entries produced
by the splice/unshift reorder (an `undefined` entry satisfies nothing). -/
def optPred (p : SchemaField → Bool) : Option SchemaField → Bool
  | some f => p f
  | none => false

/-- the layer-decorated identifier field pushed by
`computeFieldsFromProperties` (source lines 111-114). -/
def layerObjectIDField : SchemaField :=
  { objectIDFieldTemplate with editable := some false, nullable := some false }

/-- The value returned by `computeFieldsFromProperties`: either the bare empty
array `[]` returned when the properties argument is absent (source line 101),
or the labeled pair `{oidField: 'OBJECTID', fields}` (source line 119).
Accessing `.fields` on the bare array yields `undefined`. -/
inductive FromPropertiesResult where
  | emptyArray
  | withOid (oidField : String) (fields : List (Option SchemaField))
  deriving DecidableEq, Repr

/-- the JS member access `result.fields`: `undefined` on the bare array. -/
def FromPropertiesResult.fields :
    FromPropertiesResult → Option (List (Option SchemaField))
  | .emptyArray => none
  | .withOid _ fs => some fs

/-- `computeFieldsFromProperties(properties, requestContext, options)` (source
lines 99-120): build one field per property key by type inspection; in
`layer` context append a decorated identifier field when none is present; then
move the `OBJECTID` field to the front with the splice/unshift idiom.  The
`options` argument is accepted but never read by the source body. -/
def computeFieldsFromProperties (properties : Option Properties)
    (requestContext : Option String) (options : RequestOptions) :
    Except JsError FromPropertiesResult :=
  match properties with
  | none => .ok .emptyArray
  | some props =>
    match mapExcept
        (fun kv => computeFieldObject kv.1 (some kv.1)
          (some (detectType kv.2)) none requestContext) props with
    | .error e => .error e
    | .ok fields =>
      let fields :=
        if requestContext = some "layer" ∧ fields.all (fun f => !fieldIsOid f)
        then fields ++ [layerObjectIDField]
        else fields
      .ok (.withOid "OBJECTID" (spliceUnshiftFirst fieldIsOid fields))

/-- models `outFieldsParam.split(/\s*,\s*/)` at the character level: split on
`','`. -/
def splitCommaChars : List Char → List (List Char)
  | [] => [[]]
  | c :: cs =>
    if c = ',' then [] :: splitCommaChars cs
    else
      match splitCommaChars cs with
      | t :: ts => (c :: t) :: ts
      | [] => [[c]]

/-- models `outFieldsParam.split(/\s*,\s*/)` (source line 139): each comma
match also consumes the whitespace immediately around the comma.
Equivalently: split on `','`, then strip trailing whitespace from every piece
that precedes a comma and leading whitespace from every piece that follows
one; whitespace at the two outer ends of the string is kept. -/
def splitOutFields (s : String) : List String :=
  let pieces := splitCommaChars s.toList
  (pieces.enum.map (fun ip =>
    let t := if ip.1 = 0 then ip.2 else ip.2.dropWhile Char.isWhitespace
    let t := if ip.1 = pieces.length - 1 then t
             else (t.reverse.dropWhile Char.isWhitespace).reverse
    t)).map (fun cs => String.mk cs)

/-- `computeFieldsFromMetadata(metadataFields, outFieldsParam)` (source lines
127-147): shallow-clone the metadata fields, append a bare
`{name: 'OBJECTID'}` entry when the input declares none, then — only when
`outFieldsParam` is truthy (a non-empty string) and not the wildcard `"*"` —
keep exactly the entries whose name appears in the comma-separated
`outFieldsParam` list. -/
def computeFieldsFromMetadata (metadataFields : List MetadataField)
    (outFieldsParam : Option String) : List MetadataField :=
  let responseFields := metadataFields
  let responseFields :=
    if metadataFields.any (fun f => f.name == "OBJECTID") then responseFields
    else responseFields ++ [oidMetadataEntry]
  match outFieldsParam with
  | some s =>
    if s ≠ "" ∧ s ≠ "*" then
      responseFields.filter (fun f => (splitOutFields s).contains f.name)
    else responseFields
  | none => responseFields

/-- A structured `console.warn` record emitted by
`warnOnMetadataFieldDiscrepencies`: either a metadata field missing from the
sample, or a type mismatch between a metadata field and the matching sample
property. -/
inductive FieldWarning where
  | notFound (name : String) (type : Option String)
  | typeMismatch (name : String) (metaType : Option String)
      (featureName : String) (featureType : String)
  deriving DecidableEq, Repr

/-- the comparison collection built from the sample's properties (source lines
156-161): each key paired with its detected type. -/
def featureFieldsOf (properties : Properties) : List (String × String) :=
  properties.map (fun kv => (kv.1, detectType kv.2))

/-- `warnOnMetadataFieldDiscrepencies(metadataFields, properties)` (source
lines 154-177): for each metadata field, warn when no sample property shares
its name; otherwise warn of a type mismatch when the field is not `OBJECTID`,
the pair is not one of the two tolerated combinations (metadata `Date` with
detected `Integer`, metadata `Double` with detected `Integer`), and the
types differ. -/
def warnOnMetadataFieldDiscrepencies (metadataFields : List MetadataField)
    (properties : Properties) : List FieldWarning :=
  let featureFields := featureFieldsOf properties
  metadataFields.filterMap (fun field =>
    match featureFields.find? (fun ff => ff.1 == field.name) with
    | none => some (.notFound field.name field.type)
    | some ff =>
      if field.name ≠ "OBJECTID" ∧
         ¬(field.type = some "Date" ∧ ff.2 = "Integer") ∧
         ¬(field.type = some "Double" ∧ ff.2 = "Integer") ∧
         field.type ≠ some ff.2 then
        some (.typeMismatch field.name field.type ff.1 ff.2)
      else none)

/-- `computeFieldsCollection(data, requestContext, options)` (source lines
26-50): when no metadata fields are declared, derive the collection from the
first statistics record or from the sample properties and return its
`.fields` member (which is `undefined` when the derivation returned the bare
empty array); otherwise reconcile the metadata fields with the request's
`outFields`, build one descriptor per requested field — a thrown `TypeError`
aborts the whole call — and move the `OBJECTID` descriptor to the front.  The
`console.warn` diagnostics of `warnOnMetadataFieldDiscrepencies` (source line
40) do not affect the returned collection and are modelled separately. -/
def computeFieldsCollection (data : DataPayload)
    (requestContext : Option String) (options : RequestOptions) :
    Except JsError (Option (List (Option SchemaField))) :=
  let metadataFields := match data.metadata with
    | some m => m.fields
    | none => none
  let feature := match data.features with
    | some fs => fs.head?
    | none => none
  let properties := match feature with
    | some ft =>
      match ft.properties with
      | some p => some p
      | none => ft.attributes
    | none => options.attributeSample
  match metadataFields with
  | none =>
    match data.statistics with
    | some stats =>
      match computeFieldsFromProperties stats.head? requestContext options with
      | .error e => .error e
      | .ok r => .ok r.fields
    | none =>
      match computeFieldsFromProperties properties requestContext options with
      | .error e => .error e
      | .ok r => .ok r.fields
  | some mfields =>
    let requestedFields := computeFieldsFromMetadata mfields options.outFields
    match mapExcept
        (fun f => computeFieldObject f.name f.«alias» f.type f.length
          requestContext) requestedFields with
    | .error e => .error e
    | .ok responsefields =>
      .ok (some (spliceUnshiftFirst fieldIsOid responsefields))

/-- The two arrays `computeFieldsFromMetadata` touches, tracked per mutating
operation: the caller's `metadataFields` array and the local
`responseFields`. -/
structure FromMetadataTrace where
  callerArray : List MetadataField
  responseFields : List MetadataField
  deriving DecidableEq, Repr

/-- Mutation model of `computeFieldsFromMetadata`, one state update per array
operation of the source: `_.clone(metadataFields)` (line 130) creates a fresh
array holding the same elements, so the subsequent `responseFields.push(...)`
(line 134) appends to the clone only, and the `responseFields = ...filter(...)`
(line 143) rebinds the local variable to a new array.  No operation writes to
the caller's array or to any of its elements. -/
def fromMetadataTrace (metadataFields : List MetadataField)
    (outFieldsParam : Option String) : FromMetadataTrace :=
  let st : FromMetadataTrace :=
    { callerArray := metadataFields, responseFields := metadataFields }
  let st :=
    if st.callerArray.any (fun f => f.name == "OBJECTID") then st
    else { st with responseFields := st.responseFields ++ [oidMetadataEntry] }
  match outFieldsParam with
  | some s =>
    if s ≠ "" ∧ s ≠ "*" then
      let filtered :=
        st.responseFields.filter (fun f => (splitOutFields s).contains f.name)
      { st with responseFields := filtered }
    else st
  | none => st

/-- projection used to refute the collection-level `OBJECTID` invariant: the
number of `OBJECTID`-named entries of a `computeFieldsFromProperties` result
(`none` when the call failed or returned the bare empty array). -/
def fromPropsOidCount (r : Except JsError FromPropertiesResult) : Option Nat :=
  match r with
  | .ok (.withOid _ fs) => some (fs.countP (optPred fieldIsOid))
  | _ => none

/-- whether the `OBJECTID` entry appended by `computeFieldsFromMetadata`
survives the `outFields` filtering: it does unless a truthy, non-wildcard
`outFieldsParam` omits `OBJECTID` from its comma-separated list. -/
def oidSurvives (outFieldsParam : Option String) : Bool :=
  match outFieldsParam with
  | some s =>
    if s ≠ "" ∧ s ≠ "*" then (splitOutFields s).contains "OBJECTID"
    else true
  | none => true

/-! ### General lemmas about the embedded operations -/

/-- Whoever `computeFieldObject` succeeds for, the resulting descriptor keeps
the requested name (the identifier-field template already carries the name
`OBJECTID`). -/
theorem computeFieldObject_name_eq (name : String) («alias» : Option String)
    (type : Option String) (length : Option Int) (context : Option String)
    (b : SchemaField)
    (h : computeFieldObject name «alias» type length context = .ok b) :
    b.name = name := by
  unfold computeFieldObject at h
  split at h
  case isTrue hn =>
    split at h <;>
      (injection h with h; subst h; simp [objectIDFieldTemplate, hn])
  case isFalse hn =>
    cases type with
    | none => exact absurd h (by simp)
    | some t =>
      simp only at h
      split at h <;> (injection h with h; subst h; rfl)

/-- `computeFieldObject` succeeds whenever the name is `OBJECTID` or a type is
supplied. -/
theorem computeFieldObject_ok (name : String) («alias» : Option String)
    (type : Option String) (length : Option Int) (context : Option String)
    (h : name = "OBJECTID" ∨ type ≠ none) :
    ∃ b, computeFieldObject name «alias» type length context = .ok b := by
  unfold computeFieldObject
  split
  · exact ⟨_, rfl⟩
  case isFalse hn =>
    cases type with
    | none => exact absurd (h.resolve_left hn) (by simp)
    | some t => exact ⟨_, rfl⟩

/-! ### C2 — missing/empty inputs -/

/-- C2 (amended): with an absent properties argument,
`computeFieldsFromProperties` returns the bare empty array without failing;
with sample and metadata all missing, `computeFieldsCollection` also does not
fail, but it returns `undefined` (the `.fields` member of that bare empty
array), not an empty field sequence. -/
theorem c2_empty_inputs_amended :
    (∀ (ctx : Option String) (opts : RequestOptions),
      computeFieldsFromProperties none ctx opts = .ok .emptyArray) ∧
    (∀ (ctx outF : Option String),
      computeFieldsCollection {} ctx { outFields := outF } = .ok none) :=
  ⟨fun _ _ => rfl, fun _ _ => rfl⟩

/-- C2 (counterexample): on the input with no metadata fields, no features, no
statistics and no attributeSample, `computeFieldsCollection` evaluates to
`undefined` (`none`), which is not the empty field sequence the claim
promises. -/
theorem c2_counterexample :
    computeFieldsCollection {} none {} = .ok none ∧
    (Option.none : Option (List (Option SchemaField))) ≠ some [] :=
  ⟨rfl, by decide⟩

/-! ### C7 — wildcard outFields -/

/-- C7: `computeFieldsFromMetadata` with the wildcard `"*"` returns the same
collection as with an absent `outFieldsParam`. -/
theorem c7_wildcard_eq_absent (mf : List MetadataField) :
    computeFieldsFromMetadata mf (some "*") =
      computeFieldsFromMetadata mf none := rfl

/-! ### C8 — no mutation of the caller's metadata fields -/

/-- C8: in the mutation trace of `computeFieldsFromMetadata` — where every
array-mutating operation of the source updates the array it targets — the
caller's array (elements included) is untouched after the call, because the
push lands on the `_.clone` and the filter rebinds the local variable; and the
traced local variable holds exactly the value `computeFieldsFromMetadata`
returns. -/
theorem c8_no_caller_mutation (mf : List MetadataField)
    (out : Option String) :
    (fromMetadataTrace mf out).callerArray = mf ∧
    (fromMetadataTrace mf out).responseFields =
      computeFieldsFromMetadata mf out := by
  cases out with
  | none =>
    by_cases h : mf.any (fun f => f.name == "OBJECTID") <;>
      simp [fromMetadataTrace, computeFieldsFromMetadata, h]
  | some s =>
    by_cases h : mf.any (fun f => f.name == "OBJECTID") <;>
      by_cases h2 : s ≠ "" ∧ s ≠ "*" <;>
        simp [fromMetadataTrace, computeFieldsFromMetadata, h, h2]

/-! ### C9 — defined but empty properties object -/

/-- C9: for a defined properties object with no keys and a context other than
`layer`, `computeFieldsFromProperties` returns a fields sequence of length one
whose single element is `undefined`: the reorder step splices from the empty
array and unshifts the resulting `undefined`. -/
theorem c9_empty_properties_undefined (ctx : Option String)
    (opts : RequestOptions) (h : ctx ≠ some "layer") :
    computeFieldsFromProperties (some []) ctx opts =
      .ok (.withOid "OBJECTID" [none]) := by
  simp [computeFieldsFromProperties, mapExcept, spliceUnshiftFirst,
    findIndexO, h]

/-- C9 (witness): the generic (absent) context with empty options. -/
theorem c9_empty_properties_undefined_witness :
    computeFieldsFromProperties (some []) none {} =
      .ok (.withOid "OBJECTID" [none]) :=
  c9_empty_properties_undefined none {} (by decide)

/-! ### C4 — discrepancy warnings -/

/-- C4: for a metadata field and the sample property that
`warnOnMetadataFieldDiscrepencies` matches to it by name, a type-mismatch
warning is emitted exactly when the field is not named `OBJECTID`, the
metadata type differs from the detected sample type, and the pair is not one
of the two tolerated combinations (metadata `Date` with detected `Integer`,
metadata `Double` with detected `Integer`). -/
theorem c4_type_mismatch_iff (field : MetadataField) (props : Properties)
    (dt : String)
    (h : (featureFieldsOf props).find? (fun ff => ff.1 == field.name) =
      some (field.name, dt)) :
    (warnOnMetadataFieldDiscrepencies [field] props =
        [.typeMismatch field.name field.type field.name dt]) ↔
      (field.name ≠ "OBJECTID" ∧ field.type ≠ some dt ∧
       ¬(field.type = some "Date" ∧ dt = "Integer") ∧
       ¬(field.type = some "Double" ∧ dt = "Integer")) := by
  unfold warnOnMetadataFieldDiscrepencies
  simp only [List.filterMap_cons, List.filterMap_nil, h]
  split
  case h_1 heq =>
    split at heq
    case isTrue hc => simp at heq
    case isFalse hc =>
      constructor
      · intro he
        simp at he
      · intro hr
        exfalso
        apply hc
        tauto
  case h_2 b heq =>
    split at heq
    case isTrue hc =>
      have hb : b = FieldWarning.typeMismatch field.name field.type
          field.name dt := by
        injection heq with hh
        exact hh.symm
      subst hb
      constructor
      · intro _
        tauto
      · intro _
        rfl
    case isFalse hc => simp at heq

/-- C4 (witness): metadata type `String` against a detected `Integer` sample
value does produce the mismatch warning. -/
theorem c4_type_mismatch_iff_witness :
    warnOnMetadataFieldDiscrepencies [{ name := "a", type := some "String" }]
        [("a", JsValue.intNum 7)] =
      [.typeMismatch "a" (some "String") "a" "Integer"] :=
  (c4_type_mismatch_iff { name := "a", type := some "String" }
      [("a", JsValue.intNum 7)] "Integer" (by rfl)).mpr (by decide)

/-! ### Counterexamples to C1, C3, C5, C6, C10 as stated -/

/-- C1 (counterexample): a one-key sample in a non-`layer` context yields a
collection with zero `OBJECTID` elements, not exactly one. -/
theorem c1_counterexample :
    fromPropsOidCount
        (computeFieldsFromProperties (some [("a", JsValue.intNum 1)])
          none {}) = some 0 ∧
    some 0 ≠ some 1 := ⟨rfl, by decide⟩

/-- C3 (counterexample): with metadata `[{name: "a"}]` and
`outFieldsParam = "a"`, the appended `OBJECTID` entry is filtered out, so the
output contains zero `OBJECTID` entries rather than exactly one. -/
theorem c3_counterexample :
    computeFieldsFromMetadata [{ name := "a" }] (some "a") =
        [{ name := "a" }] ∧
    ¬((computeFieldsFromMetadata [{ name := "a" }] (some "a")).countP
        (fun f => f.name == "OBJECTID") = 1) := ⟨rfl, by decide⟩

/-- C5 (counterexample): the empty string is provided and differs from `"*"`,
yet the source's truthiness test skips filtering entirely: the result keeps
every entry instead of the empty filter result the claim demands. -/
theorem c5_counterexample :
    computeFieldsFromMetadata [{ name := "a" }] (some "") =
        [{ name := "a" }, oidMetadataEntry] ∧
    ([{ name := "a" }, oidMetadataEntry] : List MetadataField).filter
        (fun f => (splitOutFields "").contains f.name) = [] :=
  ⟨rfl, rfl⟩

/-- C6 (counterexample): an explicit length of `0` is given, but the falsy
check `length || ...` discards it and the `String` default `128` wins, so the
explicit value does not always win. -/
theorem c6_counterexample :
    (computeFieldObject "x" none (some "String") (some 0) none).map
        SchemaField.length = .ok (some 128) ∧
    some (128 : Int) ≠ some (0 : Int) := ⟨rfl, by decide⟩

/-- C10 (counterexample): metadata declares the type-less non-`OBJECTID` field
`a`, yet `computeFieldsCollection` succeeds because `outFields = "b"` filters
`a` out before any descriptor is built. -/
theorem c10_counterexample :
    computeFieldsCollection { metadata := some { fields := some [{ name := "a" }, { name := "b", type := some "String" }] } } none { outFields := some "b" } =
      .ok (some [some { name := "b", type := "esriFieldTypeString",
                        «alias» := "b", length := some 128 }]) := rfl

/-! ### C6 — length defaults -/

/-- C6 (amended): for every non-`OBJECTID` name, the built descriptor's length
equals the explicit length argument when one is given and nonzero (regardless
of type); when the argument is absent — or `0`, which the source's falsy test
`length || ...` treats the same way — the default applies: 128 when the type
is `String`, 36 when it is `Date`, unset otherwise. -/
theorem c6_length_amended (name : String) («alias» : Option String)
    (t : String) (ctx : Option String) (h : name ≠ "OBJECTID") :
    (∀ n : Int, n ≠ 0 →
      (computeFieldObject name «alias» (some t) (some n) ctx).map
        SchemaField.length = .ok (some n)) ∧
    ((computeFieldObject name «alias» (some t) none ctx).map
        SchemaField.length =
      .ok (if t = "String" then some 128
           else if t = "Date" then some 36 else none)) ∧
    ((computeFieldObject name «alias» (some t) (some 0) ctx).map
        SchemaField.length =
      .ok (if t = "String" then some 128
           else if t = "Date" then some 36 else none)) := by
  refine ⟨fun n hn => ?_, ?_, ?_⟩ <;>
    simp [computeFieldObject, h, jsOrLength, Except.map,
      apply_ite SchemaField.length, *]

/-- C6 (witness): an explicit nonzero length wins over the type default. -/
theorem c6_length_amended_witness :
    (computeFieldObject "x" none (some "Integer") (some 5) none).map
        SchemaField.length = .ok (some 5) :=
  (c6_length_amended "x" none "Integer" none (by decide)).1 5 (by decide)

/-! ### C5 — outFields filtering -/

/-- C5 (amended): for a provided, non-empty (the source's truthiness test
skips the empty string) and non-wildcard `outFieldsParam`, the result is
exactly the `OBJECTID`-completed metadata sequence filtered to the names of
the comma-separated list (whitespace around each comma tolerated), and it is
a sublist of that sequence — i.e. kept entries stay in metadata order, not in
`outFields` order. -/
theorem c5_outfields_filter_amended (mf : List MetadataField) (s : String)
    (h1 : s ≠ "") (h2 : s ≠ "*") :
    computeFieldsFromMetadata mf (some s) =
      (if mf.any (fun f => f.name == "OBJECTID") then mf
       else mf ++ [oidMetadataEntry]).filter
        (fun f => (splitOutFields s).contains f.name) ∧
    (computeFieldsFromMetadata mf (some s)).Sublist
      (if mf.any (fun f => f.name == "OBJECTID") then mf
       else mf ++ [oidMetadataEntry]) := by
  have he : computeFieldsFromMetadata mf (some s) =
      (if mf.any (fun f => f.name == "OBJECTID") then mf
       else mf ++ [oidMetadataEntry]).filter
        (fun f => (splitOutFields s).contains f.name) := by
    unfold computeFieldsFromMetadata
    simp [h1, h2]
  exact ⟨he, he ▸ List.filter_sublist _⟩

/-- C5 (witness): `outFields = "c , a"` keeps `a` and `c` in metadata order
despite the reversed, whitespace-padded request list. -/
theorem c5_outfields_filter_amended_witness :
    computeFieldsFromMetadata
        [{ name := "a" }, { name := "b" }, { name := "c" }] (some "c , a") =
      [{ name := "a" }, { name := "c" }] :=
  ((c5_outfields_filter_amended
      [{ name := "a" }, { name := "b" }, { name := "c" }] "c , a"
      (by decide) (by decide)).1).trans (by rfl)

/-! ### C3 — the appended OBJECTID entry -/

/-- C3 (amended): for a metadata sequence with no `OBJECTID` entry, the bare
`{name: 'OBJECTID'}` entry is appended before filtering; it remains in the
output — exactly one `OBJECTID` entry, in last position — precisely when
`outFieldsParam` is absent, empty, the wildcard `"*"`, or a comma-separated
list containing `OBJECTID`; any other list filters the appended entry out,
leaving no `OBJECTID` entry at all. -/
theorem c3_objectid_appended_amended (mf : List MetadataField)
    (out : Option String) (h : ∀ f ∈ mf, f.name ≠ "OBJECTID") :
    ((computeFieldsFromMetadata mf out).countP
        (fun f => f.name == "OBJECTID") =
      if oidSurvives out then 1 else 0) ∧
    (oidSurvives out = true →
      (computeFieldsFromMetadata mf out).getLast? = some oidMetadataEntry) := by
  have hany : mf.any (fun f => f.name == "OBJECTID") = false := by
    simp only [List.any_eq_false]
    intro f hf
    simpa using h f hf
  have hcount : mf.countP (fun f => f.name == "OBJECTID") = 0 := by
    rw [List.countP_eq_zero]
    intro f hf
    simpa using h f hf
  have hbase : computeFieldsFromMetadata mf out =
      (match out with
       | some s =>
         if s ≠ "" ∧ s ≠ "*" then
           (mf ++ [oidMetadataEntry]).filter
             (fun f => (splitOutFields s).contains f.name)
         else mf ++ [oidMetadataEntry]
       | none => mf ++ [oidMetadataEntry]) := by
    unfold computeFieldsFromMetadata
    rw [hany]
    simp
  cases out with
  | none =>
    rw [hbase]
    refine ⟨?_, fun _ => List.getLast?_concat _⟩
    simp [oidSurvives, List.countP_append, hcount, oidMetadataEntry,
      List.countP_cons]
  | some s =>
    by_cases hs : s ≠ "" ∧ s ≠ "*"
    · have hsurv : oidSurvives (some s) =
          (splitOutFields s).contains "OBJECTID" := by
        simp [oidSurvives, hs]
      rw [hbase]
      simp only [if_pos hs]
      constructor
      · rw [List.countP_filter, List.countP_append, hsurv]
        have hmf : mf.countP (fun f =>
            (f.name == "OBJECTID") && (splitOutFields s).contains f.name) =
            0 := by
          rw [List.countP_eq_zero]
          intro f hf
          simp [h f hf]
        rw [hmf]
        by_cases hc : (splitOutFields s).contains "OBJECTID" = true <;>
          simp [List.countP_cons, oidMetadataEntry, hc]
      · intro hsv
        rw [hsurv] at hsv
        rw [List.filter_append]
        have : ([oidMetadataEntry].filter
            (fun f => (splitOutFields s).contains f.name)) =
            [oidMetadataEntry] := by
          simp only [List.filter_cons, List.filter_nil, oidMetadataEntry, hsv]
          simp
        rw [this]
        exact List.getLast?_concat _
    · have hsurv : oidSurvives (some s) = true := by
        simp [oidSurvives, hs]
      rw [hbase]
      simp only [if_neg hs, hsurv]
      refine ⟨?_, fun _ => List.getLast?_concat _⟩
      simp [List.countP_append, hcount, oidMetadataEntry, List.countP_cons]

/-- C3 (witness): a metadata sequence without `OBJECTID` and an `outFields`
list that names `OBJECTID` explicitly. -/
theorem c3_objectid_appended_amended_witness :
    ((computeFieldsFromMetadata [{ name := "a" }] (some "a, OBJECTID")).countP
        (fun f => f.name == "OBJECTID") =
      if oidSurvives (some "a, OBJECTID") then 1 else 0) ∧
    (oidSurvives (some "a, OBJECTID") = true →
      (computeFieldsFromMetadata [{ name := "a" }]
          (some "a, OBJECTID")).getLast? = some oidMetadataEntry) :=
  c3_objectid_appended_amended [{ name := "a" }] (some "a, OBJECTID")
    (by decide)

/-! ### C10 — missing metadata type -/

/-- A thrown exception in any element of a JS `map` aborts the whole map; the
only exception value in this embedding is the `TypeError`. -/
theorem mapExcept_error_of_mem (g : α → Except JsError β) (l : List α)
    (a : α) (ha : a ∈ l) (e : JsError) (hga : g a = .error e) :
    mapExcept g l = .error .typeError := by
  induction l with
  | nil => cases ha
  | cons x t ih =>
    cases hgx : g x with
    | error e' =>
      cases e'
      simp [mapExcept, hgx]
    | ok b =>
      rcases List.mem_cons.mp ha with rfl | hat
      · rw [hga] at hgx
        cases hgx
      · simp [mapExcept, hgx, ih hat]

/-- C10 (amended): for every non-`OBJECTID` name, `computeFieldObject` with an
`undefined`/`null` type throws a `TypeError`; consequently any non-`OBJECTID`
metadata field lacking a type that survives the `outFields` filtering — in
particular, any such field when no filtering applies — makes the whole
`computeFieldsCollection` call fail.  (A type-less field that the filtering
removes does not, see the counterexample.) -/
theorem c10_missing_type_amended :
    (∀ (name : String) («alias» : Option String) (len : Option Int)
        (ctx : Option String), name ≠ "OBJECTID" →
      computeFieldObject name «alias» none len ctx = .error .typeError) ∧
    (∀ (data : DataPayload) (mf : List MetadataField) (ctx : Option String)
        (opts : RequestOptions) (f : MetadataField),
      data.metadata = some { fields := some mf } →
      f ∈ computeFieldsFromMetadata mf opts.outFields →
      f.name ≠ "OBJECTID" → f.type = none →
      computeFieldsCollection data ctx opts = .error .typeError) := by
  constructor
  · intro name al len ctx h
    simp [computeFieldObject, h]
  · intro data mf ctx opts f hmeta hf hname htype
    have herr : computeFieldObject f.name f.«alias» f.type f.length ctx =
        .error .typeError := by
      rw [htype]
      simp [computeFieldObject, hname]
    have hmap := mapExcept_error_of_mem
      (fun f => computeFieldObject f.name f.«alias» f.type f.length ctx)
      (computeFieldsFromMetadata mf opts.outFields) f hf .typeError herr
    unfold computeFieldsCollection
    rw [hmeta]
    simp [hmap]

/-- C10 (witness): one type-less non-`OBJECTID` metadata field and no
`outFields` filtering abort the whole call with the `TypeError`. -/
theorem c10_missing_type_amended_witness :
    computeFieldsCollection
        { metadata := some { fields := some [{ name := "a" }] } } none {} =
      .error .typeError :=
  c10_missing_type_amended.2
    { metadata := some { fields := some [{ name := "a" }] } }
    [{ name := "a" }] none {} { name := "a" } rfl (by decide) (by decide) rfl

/-! ### C1 — machinery for the OBJECTID-first invariant -/

/-- `findIndex` misses exactly when no element matches. -/
theorem findIndexO_eq_none_iff (p : α → Bool) (l : List α) :
    findIndexO p l = none ↔ ∀ x ∈ l, p x = false := by
  induction l with
  | nil => simp [findIndexO]
  | cons a t ih =>
    by_cases hp : p a <;> simp [findIndexO, hp, ih]

/-- when some element matches, `findIndex` returns an index. -/
theorem findIndexO_ne_none (p : α → Bool) (l : List α)
    (h : ∃ x ∈ l, p x = true) : ∃ j, findIndexO p l = some j := by
  cases hfi : findIndexO p l with
  | some j => exact ⟨j, rfl⟩
  | none =>
    obtain ⟨x, hx, hpx⟩ := h
    rw [findIndexO_eq_none_iff] at hfi
    rw [hfi x hx] at hpx
    cases hpx

/-- The splice/unshift reorder applied to an array holding exactly one
matching element: the result again holds exactly one matching element, and
that element sits at the front (no `undefined` enters the array). -/
theorem spliceUnshiftFirst_of_countP_one (p : SchemaField → Bool)
    (fs : List SchemaField) (h : fs.countP p = 1) :
    (spliceUnshiftFirst p fs).countP (optPred p) = 1 ∧
    ∃ x, (spliceUnshiftFirst p fs).head? = some (some x) ∧ p x = true := by
  induction fs with
  | nil => simp at h
  | cons a t ih =>
    by_cases hp : p a
    · have ht : t.countP p = 0 := by
        rw [List.countP_cons, if_pos hp] at h
        omega
      have hsp : spliceUnshiftFirst p (a :: t) = some a :: t.map some := by
        simp [spliceUnshiftFirst, findIndexO, hp]
      refine ⟨?_, a, by rw [hsp]; rfl, hp⟩
      rw [hsp, List.countP_cons, List.countP_map]
      have : t.countP (fun x => optPred p (some x)) = 0 := by
        simpa [optPred] using ht
      simp only [Function.comp_def]
      rw [this]
      simp [optPred, hp]
    · have hcnt : t.countP p = 1 := by
        rw [List.countP_cons, if_neg hp] at h
        simpa using h
      have hex : ∃ z ∈ t, p z = true := by
        have hpos : 0 < t.countP p := by omega
        exact List.countP_pos_iff.mp hpos
      obtain ⟨j, hj⟩ := findIndexO_ne_none p t hex
      have hspt : spliceUnshiftFirst p t =
          t[j]? :: ((t.take j ++ t.drop (j + 1)).map some) := by
        simp [spliceUnshiftFirst, hj]
      have hsp : spliceUnshiftFirst p (a :: t) =
          t[j]? :: some a :: ((t.take j ++ t.drop (j + 1)).map some) := by
        have hidx : findIndexO p (a :: t) = some (j + 1) := by
          simp [findIndexO, hp, hj]
        simp [spliceUnshiftFirst, hidx, List.getElem?_cons_succ,
          List.take_succ_cons, List.drop_succ_cons]
      obtain ⟨ihc, x, ihx, ihpx⟩ := ih hcnt
      rw [hspt] at ihc ihx
      have hjx : t[j]? = some x := by simpa using ihx
      rw [hjx] at ihc
      have hrest : ((t.take j ++ t.drop (j + 1)).map some).countP
          (optPred p) = 0 := by
        rw [List.countP_cons] at ihc
        simp only [optPred, ihpx, if_pos] at ihc
        omega
      constructor
      · rw [hsp, hjx, List.countP_cons, List.countP_cons, hrest]
        simp [optPred, hp, ihpx]
      · exact ⟨x, by rw [hsp, hjx]; rfl, ihpx⟩

/-- a JS `map` whose callback never throws returns the list of callback
results, aligned with the inputs. -/
theorem mapExcept_ok_forall2 (g : α → Except ε β) (l : List α)
    (h : ∀ a ∈ l, ∃ b, g a = .ok b) :
    ∃ l', mapExcept g l = .ok l' ∧
      List.Forall₂ (fun a b => g a = .ok b) l l' := by
  induction l with
  | nil => exact ⟨[], rfl, List.Forall₂.nil⟩
  | cons a t ih =>
    obtain ⟨b, hb⟩ := h a (List.mem_cons_self a t)
    obtain ⟨t', ht', hf⟩ := ih (fun x hx => h x (List.mem_cons_of_mem a hx))
    refine ⟨b :: t', ?_, List.Forall₂.cons hb hf⟩
    simp [mapExcept, hb, ht']

/-- counting transfers along an element-wise relation that preserves the
predicate. -/
theorem countP_eq_of_forall2 {R : α → β → Prop} {l : List α} {l' : List β}
    (hf : List.Forall₂ R l l') (p : α → Bool) (q : β → Bool)
    (hpq : ∀ a b, R a b → p a = q b) : l'.countP q = l.countP p := by
  induction hf with
  | nil => rfl
  | cons hr htl ih =>
    rename_i a b as bs
    rw [List.countP_cons, List.countP_cons, ih, hpq a b hr]

/-- a JS object's distinct keys give at most one property with any given
name. -/
theorem countP_key_le_one_of_nodup (key : String) (ps : Properties)
    (h : (ps.map Prod.fst).Nodup) :
    ps.countP (fun kv => kv.1 == key) ≤ 1 := by
  induction ps with
  | nil => simp
  | cons kv t ih =>
    rw [List.map_cons, List.nodup_cons] at h
    rw [List.countP_cons]
    by_cases hk : (kv.1 == key) = true
    · have hkey : kv.1 = key := by simpa using hk
      have hzero : t.countP (fun kv2 => kv2.1 == key) = 0 := by
        rw [List.countP_eq_zero]
        intro z hz
        simp only [beq_iff_eq]
        intro hzk
        exact h.1 (by rw [hkey, ← hzk]; exact List.mem_map_of_mem Prod.fst hz)
      rw [hzero, if_pos hk]
    · rw [if_neg hk]
      have := ih h.2
      omega

/-- C1 (amended): the `OBJECTID`-first invariant holds on the paths that put
an `OBJECTID` element into the collection before the reorder: (a) sample
derivation in `layer` context (for a sample with distinct keys), and (b)
metadata derivation whenever the requested (post-filter) fields hold exactly
one `OBJECTID` entry and every other requested field carries a type.  On
other paths the output can lack `OBJECTID` entirely (see the
counterexample). -/
theorem c1_oid_first_amended :
    (∀ (ps : Properties) (opts : RequestOptions),
      (ps.map Prod.fst).Nodup →
      ∃ fs, computeFieldsFromProperties (some ps) (some "layer") opts =
          .ok (.withOid "OBJECTID" fs) ∧
        fs.countP (optPred fieldIsOid) = 1 ∧
        ∃ x, fs.head? = some (some x) ∧ x.name = "OBJECTID") ∧
    (∀ (data : DataPayload) (mf : List MetadataField) (ctx : Option String)
        (opts : RequestOptions),
      data.metadata = some { fields := some mf } →
      (computeFieldsFromMetadata mf opts.outFields).countP
          (fun f => f.name == "OBJECTID") = 1 →
      (∀ f ∈ computeFieldsFromMetadata mf opts.outFields,
        f.name = "OBJECTID" ∨ f.type ≠ none) →
      ∃ fs, computeFieldsCollection data ctx opts = .ok (some fs) ∧
        fs.countP (optPred fieldIsOid) = 1 ∧
        ∃ x, fs.head? = some (some x) ∧ x.name = "OBJECTID") := by
  constructor
  · intro ps opts hnodup
    have hok : ∀ kv ∈ ps, ∃ b,
        computeFieldObject kv.1 (some kv.1) (some (detectType kv.2)) none
          (some "layer") = .ok b :=
      fun kv _ => computeFieldObject_ok _ _ _ _ _ (Or.inr (by simp))
    obtain ⟨l', hmap, hf2⟩ := mapExcept_ok_forall2
      (fun kv => computeFieldObject kv.1 (some kv.1) (some (detectType kv.2))
        none (some "layer")) ps hok
    have hcnt : l'.countP fieldIsOid =
        ps.countP (fun kv => kv.1 == "OBJECTID") := by
      refine countP_eq_of_forall2 hf2 _ _ (fun kv b hr => ?_)
      have hn := computeFieldObject_name_eq _ _ _ _ _ _ hr
      simp [fieldIsOid, hn]
    have hle := countP_key_le_one_of_nodup "OBJECTID" ps hnodup
    have hcases : l'.countP fieldIsOid = 0 ∨ l'.countP fieldIsOid = 1 := by
      omega
    simp only [computeFieldsFromProperties]
    rw [hmap]
    rcases hcases with hc0 | hc1
    · have hall : (l'.all fun f => !fieldIsOid f) = true := by
        rw [List.all_eq_true]
        intro b hb
        have := List.countP_eq_zero.mp hc0 b hb
        simp [this]
      have hcnt1 : (l' ++ [layerObjectIDField]).countP fieldIsOid = 1 := by
        rw [List.countP_append, hc0]
        rfl
      obtain ⟨hcc, x, hx, hpx⟩ :=
        spliceUnshiftFirst_of_countP_one fieldIsOid
          (l' ++ [layerObjectIDField]) hcnt1
      refine ⟨_, by simp [hall], hcc, x, hx, by simpa [fieldIsOid] using hpx⟩
    · have hall : (l'.all fun f => !fieldIsOid f) = false := by
        obtain ⟨b, hb, hpb⟩ := List.countP_pos_iff.mp
          (show 0 < l'.countP fieldIsOid by omega)
        cases hall : (l'.all fun f => !fieldIsOid f)
        · rfl
        · have := List.all_eq_true.mp hall b hb
          rw [hpb] at this
          cases this
      obtain ⟨hcc, x, hx, hpx⟩ :=
        spliceUnshiftFirst_of_countP_one fieldIsOid l' hc1
      refine ⟨_, by simp [hall], hcc, x, hx, by simpa [fieldIsOid] using hpx⟩
  · intro data mf ctx opts hmeta hcnt htypes
    have hok : ∀ f ∈ computeFieldsFromMetadata mf opts.outFields, ∃ b,
        computeFieldObject f.name f.«alias» f.type f.length ctx = .ok b :=
      fun f hf => computeFieldObject_ok _ _ _ _ _ (htypes f hf)
    obtain ⟨l', hmap, hf2⟩ := mapExcept_ok_forall2
      (fun f => computeFieldObject f.name f.«alias» f.type f.length ctx)
      (computeFieldsFromMetadata mf opts.outFields) hok
    have hcnt' : l'.countP fieldIsOid = 1 := by
      rw [countP_eq_of_forall2 hf2 (fun f => f.name == "OBJECTID") fieldIsOid
        (fun f b hr => ?_)]
      · exact hcnt
      · have hn := computeFieldObject_name_eq _ _ _ _ _ _ hr
        simp [fieldIsOid, hn]
    obtain ⟨hcc, x, hx, hpx⟩ :=
      spliceUnshiftFirst_of_countP_one fieldIsOid l' hcnt'
    simp only [computeFieldsCollection, hmeta]
    rw [hmap]
    exact ⟨_, rfl, hcc, x, hx, by simpa [fieldIsOid] using hpx⟩

/-- C1 (witness): part (a) at a one-key sample in `layer` context, part (b)
at a one-field metadata payload without filtering. -/
theorem c1_oid_first_amended_witness :
    (∃ fs, computeFieldsFromProperties (some [("a", JsValue.str "v")])
        (some "layer") {} = .ok (.withOid "OBJECTID" fs) ∧
      fs.countP (optPred fieldIsOid) = 1 ∧
      ∃ x, fs.head? = some (some x) ∧ x.name = "OBJECTID") ∧
    (∃ fs, computeFieldsCollection
        { metadata := some { fields := some [{ name := "n", type := some "String" }] } }
        none {} = .ok (some fs) ∧
      fs.countP (optPred fieldIsOid) = 1 ∧
      ∃ x, fs.head? = some (some x) ∧ x.name = "OBJECTID") :=
  ⟨c1_oid_first_amended.1 [("a", JsValue.str "v")] {} (by decide),
   c1_oid_first_amended.2
     { metadata := some { fields := some [{ name := "n", type := some "String" }] } }
     [{ name := "n", type := some "String" }] none {} rfl (by decide)
     (by decide)⟩
